import Mathlib

/-!
Verification development for the `market_monitor` component of the
qjlxg/eate repository (file `market_monitor.py`).

The Python source is shallowly embedded here:
* a stored series row is a pair `(date, net value)` with dates as natural
  numbers and net values as exact rationals (`ℚ` stands in for the finite
  floats the program manipulates; `Option ℚ` models a `NaN` / missing value);
* the pandas pipelines (`ewm`, `rolling.mean`, `rolling.std`, `diff`,
  `pct_change`, `drop_duplicates`, `sort_values`, `tail`) are translated to
  explicit list functions;
* the network fetch of `_fetch_fund_data` is modelled by an oracle
  `ℕ → PageOutcome` giving, for each page index, either a raised request
  exception, a malformed body (no `content:`/`pages:` match), or a list of
  parsed rows; the `tenacity` retry decorator re-runs the same deterministic
  computation, so an exception that escapes one attempt escapes all five and
  is modelled as the final error outcome;
* file-system effects of the backtest driver are modelled by an explicit
  record of the per-fund files and the aggregate results file.
-/

namespace MarketMonitor

/-- One stored row: `(date, net_value)` as kept in `fund_data/<code>.csv`. -/
abbrev SeriesPoint := ℕ × ℚ

/-- `df.tail(100)`: the trailing window of at most 100 rows. -/
def tail100 (l : List SeriesPoint) : List SeriesPoint := l.drop (l.length - 100)

/-- Last element of a list of rationals (`.iloc[-1]`), defaulting to 0 for
the empty list (the callers guard non-emptiness). -/
def last0 (l : List ℚ) : ℚ := l.getLastD 0

/-- The window a pandas `rolling(window := w, min_periods := 1)` sees at the
final index: the trailing `min w l.length` entries. -/
def lastWindow (w : ℕ) (l : List ℚ) : List ℚ := l.drop (l.length - w)

/-- Arithmetic mean (`.mean()`); `0` on the empty list, which the callers
never pass. -/
def meanQ (l : List ℚ) : ℚ := l.sum / l.length

/-- Sample variance with `ddof = 1`, the square of the pandas
`rolling(...).std()`.  The source stores the Bollinger bands
`bb_mid ± 2·√variance`; the square root is irrational in general, so the
development carries the exact pair `(mean, variance)` and phrases the two
band comparisons `net_value > bb_upper` / `net_value < bb_lower` by the
equivalent exact conditions
`nv > mid ∧ (nv - mid)^2 > 4·var` / `nv < mid ∧ (mid - nv)^2 > 4·var`. -/
def sampleVarQ (l : List ℚ) : ℚ :=
  (l.map (fun x => (x - meanQ l) ^ 2)).sum / ((l.length - 1 : ℕ) : ℚ)

/-- Population variance (`numpy.std` squared, `ddof = 0`), used by the
Sharpe-like statistic of `_backtest_strategy`. -/
def popVarQ (l : List ℚ) : ℚ :=
  (l.map (fun x => (x - meanQ l) ^ 2)).sum / (l.length : ℚ)

/-- `series.diff()` without its leading `NaN` entry: the list
`[v₁−v₀, v₂−v₁, …]`. -/
def diffs (vals : List ℚ) : List ℚ := List.zipWith (· - ·) vals.tail vals

/-- `delta.where(delta > 0, 0)` on a non-empty series: the leading `NaN` of
`diff` compares false against `0`, giving a leading `0`. -/
def gainList (vals : List ℚ) : List ℚ :=
  0 :: (diffs vals).map (fun d => if 0 < d then d else 0)

/-- `-delta.where(delta < 0, 0)` on a non-empty series. -/
def lossList (vals : List ℚ) : List ℚ :=
  0 :: (diffs vals).map (fun d => if d < 0 then -d else 0)

/-- The RSI of `_calculate_indicators` lines 222–229 (identically repeated at
lines 330–336 of `_backtest_strategy`) at the final index:
14-period rolling means of gains and losses with `min_periods = 1`;
`avg_loss.replace(0, nan)` turns a zero average loss into `NaN`, so the RSI
value itself is `NaN` (`none`) in that case, and otherwise
`100 - 100 / (1 + avg_gain / avg_loss)`. -/
def rsiLast (vals : List ℚ) : Option ℚ :=
  match vals with
  | [] => none
  | _ :: _ =>
    let avgLoss := meanQ (lastWindow 14 (lossList vals))
    if avgLoss = 0 then none
    else some (100 - 100 / (1 + meanQ (lastWindow 14 (gainList vals)) / avgLoss))

/-- `ewm(span, adjust := False)` recursion after the seed value:
`e₀ = x₀`, `eᵢ = α·xᵢ + (1−α)·eᵢ₋₁`. -/
def ewmaFrom (a : ℚ) (prev : ℚ) : List ℚ → List ℚ
  | [] => []
  | x :: xs =>
    let e := a * x + (1 - a) * prev
    e :: ewmaFrom a e xs

/-- Full `ewm(span, adjust := False).mean()` series; `a = 2 / (span + 1)`. -/
def ewmaList (a : ℚ) : List ℚ → List ℚ
  | [] => []
  | x :: xs => x :: ewmaFrom a x xs

/-- The MACD histogram `macd.iloc[-1] - signal.iloc[-1]` of the source:
`macd = ewm(12) − ewm(26)` pointwise and `signal = ewm(9)` of `macd`
(spans 12, 26, 9 give smoothing factors 2/13, 2/27, 1/5). -/
def macdDiffLast (vals : List ℚ) : ℚ :=
  let macd := List.zipWith (· - ·) (ewmaList (2 / 13) vals) (ewmaList (2 / 27) vals)
  last0 macd - last0 (ewmaList (1 / 5) macd)

/-- `net_value / ma50` at the final index, where `ma50` is the
`rolling(window := min(50, len), min_periods := 1).mean()`.
`_calculate_indicators` line 237 guards `ma50 != 0` and substitutes `NaN`,
modelled by `none`.  (`_backtest_strategy` line 340 divides unguarded; a
zero moving average would produce a non-finite Python float there, which is
outside the embedded domain of finite values — the guarded form is used for
both, and no theorem below depends on that corner.) -/
def maRatioLast (vals : List ℚ) : Option ℚ :=
  let ma := meanQ (lastWindow (min 50 vals.length) vals)
  if ma = 0 then none else some (last0 vals / ma)

/-- `not np.isnan(x) and x < c` for a possibly-`NaN` float `x`. -/
def defLt (x : Option ℚ) (c : ℚ) : Prop :=
  match x with
  | some v => v < c
  | none => False

/-- `not np.isnan(x) and x > c` for a possibly-`NaN` float `x`. -/
def defGt (x : Option ℚ) (c : ℚ) : Prop :=
  match x with
  | some v => c < v
  | none => False

instance (x : Option ℚ) (c : ℚ) : Decidable (defLt x c) :=
  match x with
  | some v => decidable_of_iff (v < c) (by simp [defLt])
  | none => isFalse (by simp [defLt])

instance (x : Option ℚ) (c : ℚ) : Decidable (defGt x c) :=
  match x with
  | some v => decidable_of_iff (c < v) (by simp [defGt])
  | none => isFalse (by simp [defGt])

/-- The discrete labels of the rule tables.  The Python strings are
`强买入` (strong buy), `弱买入` (weak buy), `持有/观察` (hold/observe),
`弱卖出/规避` (weak sell/avoid), `强卖出/规避` (strong sell/avoid) and the
`N/A` marker used for failed instruments. -/
inductive Label
  | strongBuy
  | weakBuy
  | hold
  | weakSell
  | strongSell
  | notAvailable
deriving DecidableEq, Repr

/-- The advisory labels (`投资建议`): `观察` (watch), `等待回调`
(wait for pullback), `可分批买入` (buy gradually). -/
inductive Advice
  | watch
  | waitPullback
  | gradualBuy
deriving DecidableEq, Repr

/-- The `action_signal` rule chain of `_calculate_indicators`
(lines 259–277), evaluated top to bottom, first match wins.
`aboveUpper` / `belowLower` stand for the two Bollinger clauses
`not isnan(bb_upper) and net_value > bb_upper` and
`not isnan(bb_lower) and net_value < bb_lower`, which
`calculateIndicators` below instantiates with the exact square-free
comparisons. -/
def liveActionSignal (rsi maR macdD : Option ℚ)
    (aboveUpper belowLower : Prop) [Decidable aboveUpper] [Decidable belowLower] :
    Label :=
  if defLt maR (19 / 20) then .strongSell
  else if defGt rsi 70 ∧ defGt maR (6 / 5) ∧ defLt macdD 0 then .strongSell
  else if defGt rsi 65 ∨ aboveUpper ∨ defGt maR (6 / 5) then .weakSell
  else if defLt rsi 35 ∧ defLt maR (9 / 10) ∧ defGt macdD 0 then .strongBuy
  else if defLt rsi 45 ∨ belowLower ∨ defLt maR 1 then .weakBuy
  else .hold

/-- The `advice` rule chain of `_calculate_indicators` (lines 243–257). -/
def adviceOf (rsi maR macdD : Option ℚ)
    (aboveUpper belowLower : Prop) [Decidable aboveUpper] [Decidable belowLower] :
    Advice :=
  if defGt rsi 70 ∨ aboveUpper ∨ defGt maR (6 / 5) then .waitPullback
  else if defLt rsi 30 ∨ belowLower ∨ defLt maR (4 / 5) then .gradualBuy
  else if defGt maR 1 ∧ defGt macdD 0 then .gradualBuy
  else if defLt maR 1 ∧ defLt macdD 0 then .waitPullback
  else .watch

/-- The inline rule chain of `_backtest_strategy` (lines 343–353): the three
`np.isnan` guards of line 343 gate the whole block, and the default label
`持有/观察` survives when a guard fails or no clause fires. -/
def btClassify (rsi maR macdD : Option ℚ) : Label :=
  match rsi, maR, macdD with
  | some r, some m, some h =>
    if r < 35 ∧ m < 9 / 10 ∧ 0 < h then .strongBuy
    else if r < 45 ∨ m < 1 then .weakBuy
    else if m < 19 / 20 then .strongSell
    else if 70 < r ∧ 6 / 5 < m ∧ h < 0 then .strongSell
    else if 65 < r ∨ 6 / 5 < m then .weakSell
    else .hold
  | _, _, _ => .hold

/-- The label one iteration of the backtest loop computes from a prefix of
the value series (lines 322–353 with `temp_df = df.iloc[:i+1]`). -/
def btSignalOf (vals : List ℚ) : Label :=
  btClassify (rsiLast vals) (maRatioLast vals) (some (macdDiffLast vals))

/-- The `action_signal` column of `_backtest_strategy` at position `k`: the
loop runs for `26 ≤ k < len(df)` on the prefix `df.iloc[:k+1]`; every other
position keeps the initial `持有/观察`. -/
def btLabelAt (vals : List ℚ) (k : ℕ) : Label :=
  if 26 ≤ k ∧ k < vals.length then btSignalOf (vals.take (k + 1)) else .hold

/-- Ordering of stored rows by date, the key of `sort_values(by := 'date')`. -/
def keyLE (a b : SeriesPoint) : Prop := a.1 ≤ b.1

/-- Strict variant of `keyLE`; two rows of a deduplicated series compare
strictly. -/
def keyLT (a b : SeriesPoint) : Prop := a.1 < b.1

instance : DecidableRel keyLE := fun a b => inferInstanceAs (Decidable (a.1 ≤ b.1))

instance : IsTotal SeriesPoint keyLE := ⟨fun a b => Nat.le_total a.1 b.1⟩

instance : IsTrans SeriesPoint keyLE := ⟨fun _ _ _ h1 h2 => le_trans h1 h2⟩

/-- `sort_values(by := 'date', ascending := True)`.  The merged series has
pairwise-distinct dates, so any comparison sort produces the same list; an
insertion sort is used. -/
def sortByDate (l : List SeriesPoint) : List SeriesPoint := l.insertionSort keyLE

/-- `drop_duplicates(subset := ['date'], keep := 'last')`: a row is dropped
exactly when a later row carries the same date, so the last occurrence of
each date survives in its original position. -/
def dropDupKeepLast : List SeriesPoint → List SeriesPoint
  | [] => []
  | p :: ps =>
    if p.1 ∈ ps.map Prod.fst then dropDupKeepLast ps else p :: dropDupKeepLast ps

/-- The append-merge of `_fetch_fund_data` line 186:
`pd.concat([local_df, new_combined_df]).drop_duplicates(subset := ['date'],
keep := 'last').sort_values(by := 'date', ascending := True)`. -/
def mergeAppend (old new : List SeriesPoint) : List SeriesPoint :=
  sortByDate (dropDupKeepLast (old ++ new))

/-- The value the last row with date `d` carries, `none` when no row has
date `d` (the semantics `keep := 'last'` selects). -/
def lookupLast : List SeriesPoint → ℕ → Option ℚ
  | [], _ => none
  | p :: ps, d =>
    match lookupLast ps d with
    | some v => some v
    | none => if p.1 = d then some p.2 else none

/-- `df['date'].max()` over a stored series (0 for the empty series, which
the callers guard). -/
def latestDate (l : List SeriesPoint) : ℕ := (l.map Prod.fst).foldr max 0

/-- What one `requests.get` of a page of
`F10DataApi.aspx?...&page=<i>&per=20` produces, as seen by the parsing code:
a raised `RequestException`, a body without the expected
`content:`/`pages:` structure, or a parsed table of valid rows. -/
inductive PageOutcome
  | raises
  | malformed
  | rows (pts : List SeriesPoint)

/-- The typed failure of a fetch: a request exception surviving the five
`tenacity` attempts, the `NameError` of line 169 (see `fetchLoop`), or the
`ValueError("未获取到任何有效数据，且本地无缓存")` of line 197. -/
inductive FetchErr
  | requestFailed
  | nameError
  | noData
deriving DecidableEq, Repr

/-- The page loop of `_fetch_fund_data` (lines 114–181).  Arguments:
the page oracle, `latest_local_date` (`none` when the local file is empty),
`expected_latest_date`, the current page index, the remaining page budget
(`max_pages_to_check = 5`), the concatenation of `all_new_data`, and the
current binding of the Python variable `new_df` — which the source only
assigns on the `latest_local_date` branch (line 151), so that reading it at
line 169 on the first-ever sync raises `NameError` (an exception type the
`tenacity` decorator does not retry). -/
def fetchLoop (remote : ℕ → PageOutcome) (latestLocal : Option ℕ) (expected : ℕ) :
    ℕ → ℕ → List SeriesPoint → Option (List SeriesPoint) →
    Except FetchErr (List SeriesPoint)
  | _, 0, acc, _ => .ok acc
  | page, fuel + 1, acc, lastNew =>
    match remote page with
    | .raises => .error .requestFailed
    | .malformed => .ok acc
    | .rows df =>
      match latestLocal with
      | some d =>
        let newDf := df.filter (fun p => decide (d < p.1))
        if newDf.isEmpty then .ok acc
        else if df.length < 20 then .ok (acc ++ newDf)
        else if expected ≤ latestDate newDf then .ok (acc ++ newDf)
        else fetchLoop remote latestLocal expected (page + 1) fuel (acc ++ newDf) (some newDf)
      | none =>
        if df.length < 20 then .ok (acc ++ df)
        else
          match lastNew with
          | none => .error .nameError
          | some nd =>
            if ¬ nd.isEmpty ∧ expected ≤ latestDate nd then .ok (acc ++ df)
            else fetchLoop remote latestLocal expected (page + 1) fuel (acc ++ df) (some nd)

/-- `_fetch_fund_data` (lines 108–197) for one fund under a deterministic
remote: run the page loop from page 1 with budget 5; on new data, merge with
the local series, persist, and hand back the trailing 100 rows; with no new
data fall back to the trailing 100 local rows, or raise `ValueError` when no
local history exists either.  A raised exception is re-raised identically by
all five `tenacity` attempts and therefore surfaces as the call's error. -/
def fetchFundData (localDf : List SeriesPoint) (expected : ℕ)
    (remote : ℕ → PageOutcome) : Except FetchErr (List SeriesPoint) :=
  let latestLocal : Option ℕ := if localDf.isEmpty then none else some (latestDate localDf)
  match fetchLoop remote latestLocal expected 1 5 [] none with
  | .error e => .error e
  | .ok newData =>
    if ¬ newData.isEmpty then .ok (tail100 (mergeAppend localDf newData))
    else if ¬ localDf.isEmpty then .ok (tail100 localDf)
    else .error .noData

/-- The per-fund record `_calculate_indicators` assembles.  `none` in
`latestNetValue` models the `"数据获取失败"` marker of the short-series
branch; `bbMid`/`bbVar` carry the exact Bollinger mid-line and variance (the
source's `bb_upper`/`bb_lower` are `bbMid ± 2·√bbVar`, see `sampleVarQ`). -/
structure IndicatorResult where
  latestNetValue : Option ℚ
  rsi : Option ℚ
  maRatio : Option ℚ
  macdDiff : Option ℚ
  bbMid : Option ℚ
  bbVar : Option ℚ
  advice : Advice
  actionSignal : Label
deriving DecidableEq, Repr

/-- `_calculate_indicators` (lines 199–289): below 26 rows the failure
record is returned; otherwise the frame is sorted by date and the indicator
snapshot, advisory label and action label are computed at the final index. -/
def calculateIndicators (df : List SeriesPoint) : IndicatorResult :=
  if df.length < 26 then
    { latestNetValue := none, rsi := none, maRatio := none, macdDiff := none,
      bbMid := none, bbVar := none, advice := .watch, actionSignal := .notAvailable }
  else
    let vals := (sortByDate df).map Prod.snd
    let nv := last0 vals
    let rsi := rsiLast vals
    let maR := maRatioLast vals
    let macdD : Option ℚ := some (macdDiffLast vals)
    let bbMid := meanQ (lastWindow 20 vals)
    let bbVar := sampleVarQ (lastWindow 20 vals)
    let aboveUpper : Prop := bbMid < nv ∧ 4 * bbVar < (nv - bbMid) ^ 2
    let belowLower : Prop := nv < bbMid ∧ 4 * bbVar < (bbMid - nv) ^ 2
    { latestNetValue := some nv, rsi := rsi, maRatio := maR, macdDiff := macdD,
      bbMid := some bbMid, bbVar := some bbVar,
      advice := adviceOf rsi maR macdD aboveUpper belowLower,
      actionSignal := liveActionSignal rsi maR macdD aboveUpper belowLower }

/-- Outcome of one instrument in `get_fund_data`: a computed indicator
record, or the failure record installed by the `except` handler of
lines 439–444. -/
inductive FundOutcome
  | computed (r : IndicatorResult)
  | failed
deriving DecidableEq, Repr

/-- Lines 433–444 of `get_fund_data` for a fund that goes through the fetch
pool: a normal `future.result()` feeds `_calculate_indicators`; any raised
exception is converted into the failure record. -/
def processFetched (localDf : List SeriesPoint) (expected : ℕ)
    (remote : ℕ → PageOutcome) : FundOutcome :=
  match fetchFundData localDf expected remote with
  | .ok df => .computed (calculateIndicators df)
  | .error _ => .failed

/-- The per-fund dispatch of `get_fund_data` (lines 405–444), paired with
the number of `_fetch_fund_data` calls issued for the fund: a local series
that is fresh (`latest_local_date ≥ expected_latest_date`) and long enough
(`≥ min_data_points = 26`) is used directly with zero fetches; otherwise the
fund joins the fetch pool. -/
def processFund (localDf : List SeriesPoint) (expected : ℕ)
    (remote : ℕ → PageOutcome) : FundOutcome × ℕ :=
  if localDf ≠ [] ∧ expected ≤ latestDate localDf ∧ 26 ≤ localDf.length then
    (.computed (calculateIndicators (tail100 localDf)), 0)
  else
    (processFetched localDf expected remote, 1)

/-- `_get_expected_latest_date`: before the 21:00 publication cutoff the
expected date is yesterday, afterwards today.  Days are numbered by a
natural calendar index and the clock by minutes since midnight. -/
def getExpectedLatestDate (today minutesOfDay : ℕ) : ℕ :=
  if minutesOfDay < 21 * 60 then today - 1 else today

/-- `pct_change()` without its leading `NaN`:
`[(v₁−v₀)/v₀, (v₂−v₁)/v₁, …]`. -/
def pctChanges (vals : List ℚ) : List ℚ :=
  List.zipWith (fun b a => (b - a) / a) vals.tail vals

/-- `np.cumprod`: running products `[x₀, x₀x₁, …]`. -/
def cumprodList (l : List ℚ) : List ℚ := (l.scanl (· * ·) 1).tail

/-- `.cummax()`: running maxima. -/
def runningMax : List ℚ → List ℚ
  | [] => []
  | x :: xs => xs.scanl max x

/-- Minimum of a list (`.min()`); 0 for the empty list, which the caller
guards. -/
def listMin : List ℚ → ℚ
  | [] => 0
  | x :: xs => xs.foldl min x

/-- Trade-loop state of `_backtest_strategy` lines 355–370:
`(position = 1?, buy_price, completed round-trip returns, any trade opened)`. -/
abbrev TradeState := Bool × ℚ × List ℚ × Bool

/-- One iteration of the trade loop (lines 358–370) at row `i`: enter on a
buy-class label while flat, exit on a sell-class label while holding,
recording the completed return. -/
def tradeStep (vals : List ℚ) (st : TradeState) (i : ℕ) : TradeState :=
  let lab := btLabelAt vals i
  if (lab = Label.strongBuy ∨ lab = Label.weakBuy) ∧ st.1 = false then
    (true, vals.getD i 0, st.2.2.1, true)
  else if (lab = Label.strongSell ∨ lab = Label.weakSell) ∧ st.1 = true then
    (false, st.2.1, st.2.2.1 ++ [(vals.getD i 0 - st.2.1) / st.2.1], st.2.2.2)
  else st

/-- The whole trade loop, `i` ranging over `1 .. len(df) - 1`. -/
def tradeSim (vals : List ℚ) : TradeState :=
  (List.range' 1 (vals.length - 1)).foldl (tradeStep vals) (false, 0, [], false)

/-- The aggregate statistics of `_backtest_strategy`.  The source prints
`sharpe_ratio = mean(returns)/std(returns)·√252`, an irrational number;
its exact rational ingredients `mean(returns)` and `var(returns)` are
carried instead (both `none` exactly when the source's value is `NaN`). -/
structure BacktestStats where
  cumReturn : Option ℚ
  maxDrawdown : Option ℚ
  sharpeMean : Option ℚ
  sharpeVar : Option ℚ
  winRate : Option ℚ
deriving DecidableEq, Repr

/-- The all-`NaN` statistics record (lines 312 and 383). -/
def nanStats : BacktestStats :=
  { cumReturn := none, maxDrawdown := none, sharpeMean := none,
    sharpeVar := none, winRate := none }

/-- `_backtest_strategy` (lines 308–391): below 100 rows the `NaN` record;
otherwise sort by date, label every position with `btLabelAt`, replay the
single-position trade loop, and aggregate compound return, win rate,
maximum drawdown of the daily-return equity curve, and the Sharpe
ingredients. -/
def backtestStrategy (df : List SeriesPoint) : BacktestStats :=
  if df.length < 100 then nanStats
  else
    let vals := (sortByDate df).map Prod.snd
    let st := tradeSim vals
    let rets := st.2.2.1
    if st.2.2.2 then
      let cum := if rets.isEmpty then 0 else (rets.map (fun r => 1 + r)).prod - 1
      let win :=
        if rets.isEmpty then 0
        else ((rets.filter (fun r => decide (0 < r))).length : ℚ) / (rets.length : ℚ)
      let equity := cumprodList ((0 :: pctChanges vals).map (fun r => 1 + r))
      let dd := List.zipWith (fun e m => e / m - 1) equity (runningMax equity)
      let sharpeDefined := ¬ rets.isEmpty ∧ popVarQ rets ≠ 0
      { cumReturn := some cum,
        maxDrawdown := some (listMin dd),
        sharpeMean := if sharpeDefined then some (meanQ rets) else none,
        sharpeVar := if sharpeDefined then some (popVarQ rets) else none,
        winRate := some win }
    else nanStats

/-- The files the program touches: one `fund_data/<code>.csv` per fund code,
plus the aggregate `backtest_results.csv`. -/
structure FileSys where
  fundFiles : ℕ → List SeriesPoint
  backtestCsv : Option (List (ℕ × BacktestStats))

/-- `_read_local_data`: a pure read of the per-fund file (absent or
unreadable files yield the empty series). -/
def readLocalData (fs : FileSys) (code : ℕ) : List SeriesPoint :=
  fs.fundFiles code

/-- `perform_backtest` (lines 544–557): for each fund code, read the local
series, run `_backtest_strategy` (or record the `NaN` row when no data), and
write the collected rows to `backtest_results.csv` — the only write. -/
def performBacktest (codes : List ℕ) (fs : FileSys) : FileSys :=
  { fs with
    backtestCsv := some (codes.map (fun c =>
      let df := readLocalData fs c
      (c, if df.isEmpty then nanStats else backtestStrategy df))) }

/-- A 27-point constant series, enough for the backtest loop to label
position 26. -/
def constSeries : List ℚ := List.replicate 27 1

/-- A strictly increasing 26-point series: every delta is a gain, so the
trailing 14-period average loss is zero. -/
def risingSeries : List ℚ :=
  [1, 2, 3, 4, 5, 6, 7, 8, 9, 10, 11, 12, 13, 14, 15, 16, 17, 18, 19, 20,
   21, 22, 23, 24, 25, 26]

/-- A fresh 26-row local cache with dates `1..26` for the skip-fetch
scenario. -/
def cachedSeries : List SeriesPoint := (List.range 26).map (fun i => (i + 1, (1 : ℚ)))

/-- A full first page: 20 valid rows, the nominal `per=20` page size. -/
def fullPage : List SeriesPoint := (List.range 20).map (fun i => (i + 1, (1 : ℚ)))

/-- A remote whose every page is a full 20-row table. -/
def remoteFullPages : ℕ → PageOutcome := fun _ => .rows fullPage

/-- A remote whose every request raises `RequestException`, exhausting the
five `tenacity` attempts. -/
def remoteRaises : ℕ → PageOutcome := fun _ => .raises

/-- A remote whose every response body lacks the expected structure, ending
pagination without an exception. -/
def remoteMalformed : ℕ → PageOutcome := fun _ => .malformed

/-- A remote whose every page returns one valid row dated 1 — no newer than
a cache whose latest date is 1, so the fetch finds no new rows. -/
def remoteStale : ℕ → PageOutcome := fun _ => .rows [(1, 1)]

/-! ### Helper lemmas about the append-merge -/

theorem mem_of_mem_dropDupKeepLast {x : SeriesPoint} :
    ∀ {l : List SeriesPoint}, x ∈ dropDupKeepLast l → x ∈ l := by
  intro l
  induction l with
  | nil => simp [dropDupKeepLast]
  | cons p ps ih =>
    by_cases h : p.1 ∈ ps.map Prod.fst
    · intro hx
      rw [dropDupKeepLast, if_pos h] at hx
      exact List.mem_cons_of_mem p (ih hx)
    · intro hx
      rw [dropDupKeepLast, if_neg h] at hx
      rcases List.mem_cons.mp hx with hx | hx
      · exact hx ▸ List.mem_cons_self p ps
      · exact List.mem_cons_of_mem p (ih hx)

theorem nodupKeys_dropDupKeepLast :
    ∀ l : List SeriesPoint, ((dropDupKeepLast l).map Prod.fst).Nodup := by
  intro l
  induction l with
  | nil => simp [dropDupKeepLast]
  | cons p ps ih =>
    by_cases h : p.1 ∈ ps.map Prod.fst
    · rw [dropDupKeepLast, if_pos h]; exact ih
    · rw [dropDupKeepLast, if_neg h]
      refine List.Nodup.cons ?_ ih
      intro hmem
      rcases List.mem_map.mp hmem with ⟨y, hy, hkey⟩
      exact h (List.mem_map.mpr ⟨y, mem_of_mem_dropDupKeepLast hy, hkey⟩)

theorem lookupLast_eq_none_of_not_mem_keys {d : ℕ} :
    ∀ {l : List SeriesPoint}, d ∉ l.map Prod.fst → lookupLast l d = none := by
  intro l
  induction l with
  | nil => intro _; rfl
  | cons p ps ih =>
    intro h
    have h1 : p.1 ≠ d := fun he => h (by simp [he.symm])
    have h2 : d ∉ ps.map Prod.fst := fun hm => h (by simp [hm])
    rw [lookupLast, ih h2]
    simp [h1]

theorem mem_of_lookupLast_eq_some {d : ℕ} {v : ℚ} :
    ∀ {l : List SeriesPoint}, lookupLast l d = some v → (d, v) ∈ l := by
  intro l
  induction l with
  | nil => intro h; simp [lookupLast] at h
  | cons p ps ih =>
    intro h
    rw [lookupLast] at h
    cases htl : lookupLast ps d with
    | some w =>
      rw [htl] at h
      cases h
      exact List.mem_cons_of_mem p (ih htl)
    | none =>
      rw [htl] at h
      by_cases hd : p.1 = d
      · rw [if_pos hd] at h
        injection h with h2
        subst h2
        subst hd
        simp
      · rw [if_neg hd] at h
        cases h

theorem lookupLast_eq_some_of_mem {d : ℕ} {v : ℚ} :
    ∀ {l : List SeriesPoint}, (l.map Prod.fst).Nodup → (d, v) ∈ l →
      lookupLast l d = some v := by
  intro l
  induction l with
  | nil => intro _ h; simp at h
  | cons p ps ih =>
    intro hnd hmem
    rw [List.map_cons, List.nodup_cons] at hnd
    rcases List.mem_cons.mp hmem with he | hmem
    · have hd : p.1 = d := by rw [← he]
      have : d ∉ ps.map Prod.fst := hd ▸ hnd.1
      rw [lookupLast, lookupLast_eq_none_of_not_mem_keys this, if_pos hd, ← he]
    · rw [lookupLast, ih hnd.2 hmem]

theorem lookupLast_isSome_of_mem_keys {d : ℕ} :
    ∀ {l : List SeriesPoint}, d ∈ l.map Prod.fst → ∃ v, lookupLast l d = some v := by
  intro l
  induction l with
  | nil => simp
  | cons p ps ih =>
    intro h
    rw [lookupLast]
    cases htl : lookupLast ps d with
    | some w => exact ⟨w, rfl⟩
    | none =>
      rcases List.mem_cons.mp (List.map_cons Prod.fst p ps ▸ h) with he | hm
      · exact ⟨p.2, by rw [if_pos he.symm]⟩
      · rcases ih hm with ⟨v, hv⟩
        rw [hv] at htl
        cases htl

theorem lookupLast_dropDupKeepLast {d : ℕ} :
    ∀ l : List SeriesPoint, lookupLast (dropDupKeepLast l) d = lookupLast l d := by
  intro l
  induction l with
  | nil => rfl
  | cons p ps ih =>
    by_cases h : p.1 ∈ ps.map Prod.fst
    · rw [dropDupKeepLast, if_pos h, ih, lookupLast]
      cases htl : lookupLast ps d with
      | some w => rfl
      | none =>
        by_cases hd : p.1 = d
        · rcases lookupLast_isSome_of_mem_keys (hd ▸ h) with ⟨v, hv⟩
          rw [hv] at htl
          cases htl
        · simp [hd]
    · rw [dropDupKeepLast, if_neg h, lookupLast, lookupLast, ih]

theorem mem_dropDupKeepLast_iff {x : SeriesPoint} {l : List SeriesPoint} :
    x ∈ dropDupKeepLast l ↔ lookupLast l x.1 = some x.2 := by
  constructor
  · intro hx
    rw [← lookupLast_dropDupKeepLast]
    exact lookupLast_eq_some_of_mem (nodupKeys_dropDupKeepLast l) hx
  · intro hl
    rw [← lookupLast_dropDupKeepLast] at hl
    exact mem_of_lookupLast_eq_some hl

theorem mem_mergeAppend_iff {x : SeriesPoint} {old new : List SeriesPoint} :
    x ∈ mergeAppend old new ↔ lookupLast (old ++ new) x.1 = some x.2 := by
  rw [mergeAppend, sortByDate]
  rw [(List.perm_insertionSort keyLE (dropDupKeepLast (old ++ new))).mem_iff]
  exact mem_dropDupKeepLast_iff

theorem nodupKeys_mergeAppend (old new : List SeriesPoint) :
    ((mergeAppend old new).map Prod.fst).Nodup := by
  have hperm :
      List.Perm ((mergeAppend old new).map Prod.fst)
        ((dropDupKeepLast (old ++ new)).map Prod.fst) :=
    (List.perm_insertionSort keyLE (dropDupKeepLast (old ++ new))).map Prod.fst
  exact hperm.nodup_iff.mpr (nodupKeys_dropDupKeepLast (old ++ new))

theorem pairwiseLT_mergeAppend (old new : List SeriesPoint) :
    (mergeAppend old new).Pairwise keyLT := by
  have hsorted : (mergeAppend old new).Pairwise keyLE :=
    List.sorted_insertionSort keyLE (dropDupKeepLast (old ++ new))
  have hne : (mergeAppend old new).Pairwise fun a b => a.1 ≠ b.1 := by
    have := nodupKeys_mergeAppend old new
    rw [List.Nodup, List.pairwise_map] at this
    exact this
  exact (hsorted.and hne).imp fun h => lt_of_le_of_ne h.1 h.2

theorem lookupLast_append {d : ℕ} :
    ∀ l₁ l₂ : List SeriesPoint,
      lookupLast (l₁ ++ l₂) d =
        match lookupLast l₂ d with
        | some v => some v
        | none => lookupLast l₁ d := by
  intro l₁ l₂
  induction l₁ with
  | nil =>
    rw [List.nil_append]
    cases h : lookupLast l₂ d <;> simp [lookupLast]
  | cons p l₁ ih =>
    rw [List.cons_append, lookupLast, ih, lookupLast]
    cases lookupLast l₂ d <;> cases lookupLast l₁ d <;> rfl

theorem optionEq_of_some_iff {o₁ o₂ : Option ℚ}
    (h : ∀ v, o₁ = some v ↔ o₂ = some v) : o₁ = o₂ := by
  cases o₁ with
  | some v => exact ((h v).mp rfl).symm
  | none =>
    cases o₂ with
    | some w => exact (h w).mpr rfl
    | none => rfl

theorem lookupLast_mergeAppend {d : ℕ} (old new : List SeriesPoint) :
    lookupLast (mergeAppend old new) d = lookupLast (old ++ new) d := by
  apply optionEq_of_some_iff
  intro v
  constructor
  · intro h
    exact (mem_mergeAppend_iff (x := (d, v))).mp (mem_of_lookupLast_eq_some h)
  · intro h
    exact lookupLast_eq_some_of_mem
      (by rw [List.Nodup, List.pairwise_map] at *
          exact (pairwiseLT_mergeAppend old new).imp fun hlt => Nat.ne_of_lt hlt)
      ((mem_mergeAppend_iff (x := (d, v))).mpr h)

theorem eq_of_pairwiseLT_of_mem_iff :
    ∀ {l₁ l₂ : List SeriesPoint}, l₁.Pairwise keyLT → l₂.Pairwise keyLT →
      (∀ x, x ∈ l₁ ↔ x ∈ l₂) → l₁ = l₂ := by
  intro l₁
  induction l₁ with
  | nil =>
    intro l₂ _ _ hm
    cases l₂ with
    | nil => rfl
    | cons y l₂ => exact absurd ((hm y).mpr (List.mem_cons_self y l₂)) (by simp)
  | cons x l₁ ih =>
    intro l₂ h₁ h₂ hm
    cases l₂ with
    | nil => exact absurd ((hm x).mp (List.mem_cons_self x l₁)) (by simp)
    | cons y l₂ =>
      rw [List.pairwise_cons] at h₁ h₂
      have hxy : x = y := by
        rcases List.mem_cons.mp ((hm x).mp (List.mem_cons_self x l₁)) with he | hx2
        · exact he
        · rcases List.mem_cons.mp ((hm y).mpr (List.mem_cons_self y l₂)) with he | hy1
          · exact he.symm
          · exact absurd (h₁.1 y hy1) (lt_asymm (h₂.1 x hx2))
      subst hxy
      have htail : ∀ z, z ∈ l₁ ↔ z ∈ l₂ := by
        intro z
        constructor
        · intro hz
          rcases List.mem_cons.mp ((hm z).mp (List.mem_cons_of_mem x hz)) with he | hz2
          · exact absurd (h₁.1 z hz) (by rw [he]; exact lt_irrefl x.1)
          · exact hz2
        · intro hz
          rcases List.mem_cons.mp ((hm z).mpr (List.mem_cons_of_mem x hz)) with he | hz1
          · exact absurd (h₂.1 z hz) (by rw [he]; exact lt_irrefl x.1)
          · exact hz1
      rw [ih h₁.2 h₂.2 htail]

theorem lookupLast_mergeAppend_append {d : ℕ} (old new : List SeriesPoint) :
    lookupLast (mergeAppend old new ++ new) d = lookupLast (old ++ new) d := by
  rw [lookupLast_append, lookupLast_append]
  cases hb : lookupLast new d with
  | some v => simp
  | none =>
    simp only
    rw [lookupLast_mergeAppend, lookupLast_append, hb]

/-- C3: merging an existing stored series with a batch (concatenate,
deduplicate by date keeping the newest value, sort ascending by date) is
idempotent — applying the merge of `_fetch_fund_data` line 186 a second
time with the same overlapping batch returns exactly the stored series the
first application produced — and the merged series has no duplicate dates. -/
theorem mergeAppend_idempotent (old new : List SeriesPoint) :
    mergeAppend (mergeAppend old new) new = mergeAppend old new ∧
    ((mergeAppend old new).map Prod.fst).Nodup := by
  refine ⟨?_, nodupKeys_mergeAppend old new⟩
  apply eq_of_pairwiseLT_of_mem_iff (pairwiseLT_mergeAppend _ _) (pairwiseLT_mergeAppend _ _)
  intro x
  rw [mem_mergeAppend_iff, mem_mergeAppend_iff, lookupLast_mergeAppend_append]

/-- C2: the backtest's action label at position `k` (for `26 ≤ k` inside the
series) is a function of the prefix `[0..k]` only — appending further points
after position `k` leaves the label assigned at position `k` unchanged. -/
theorem backtest_no_lookahead (vals ext : List ℚ) (k : ℕ)
    (h26 : 26 ≤ k) (hk : k < vals.length) :
    btLabelAt (vals ++ ext) k = btLabelAt vals k := by
  rw [btLabelAt, btLabelAt, if_pos ⟨h26, by rw [List.length_append]; omega⟩,
    if_pos ⟨h26, hk⟩]
  rw [List.take_append_of_le_length (by omega)]

/-- Witness for C2 at a concrete input: a 27-point constant series with one
appended point. -/
theorem backtest_no_lookahead_witness :
    btLabelAt (constSeries ++ [5]) 26 = btLabelAt constSeries 26 :=
  backtest_no_lookahead constSeries [5] 26 (by decide) (by simp [constSeries])

/-- C10: `perform_backtest` reads the per-instrument series and writes only
the aggregate `backtest_results.csv`; every `fund_data/<code>.csv` is
unchanged after the run. -/
theorem backtest_preserves_fund_files (codes : List ℕ) (fs : FileSys) (c : ℕ) :
    (performBacktest codes fs).fundFiles c = fs.fundFiles c := rfl

theorem gainList_nonneg {x : ℚ} {vals : List ℚ} (hx : x ∈ gainList vals) : 0 ≤ x := by
  rw [gainList] at hx
  rcases List.mem_cons.mp hx with he | hm
  · exact he.ge
  · rcases List.mem_map.mp hm with ⟨d, _, hd⟩
    rw [← hd]
    split_ifs with h
    · exact le_of_lt h
    · exact le_refl 0

theorem lossList_nonneg {x : ℚ} {vals : List ℚ} (hx : x ∈ lossList vals) : 0 ≤ x := by
  rw [lossList] at hx
  rcases List.mem_cons.mp hx with he | hm
  · exact he.ge
  · rcases List.mem_map.mp hm with ⟨d, _, hd⟩
    rw [← hd]
    split_ifs with h
    · linarith
    · exact le_refl 0

theorem meanQ_nonneg {l : List ℚ} (h : ∀ x ∈ l, 0 ≤ x) : 0 ≤ meanQ l := by
  rw [meanQ]
  exact div_nonneg (List.sum_nonneg h) (by exact_mod_cast Nat.zero_le _)

/-- C9: whenever the RSI of the source (shared verbatim between
`_calculate_indicators` and `_backtest_strategy`) is defined — not the
`NaN` produced by `avg_loss.replace(0, nan)` — it lies between 0 and 100. -/
theorem rsi_within_bounds (vals : List ℚ) (r : ℚ) (h : rsiLast vals = some r) :
    0 ≤ r ∧ r ≤ 100 := by
  cases vals with
  | nil => simp [rsiLast] at h
  | cons v vs =>
    simp only [rsiLast] at h
    by_cases hz : meanQ (lastWindow 14 (lossList (v :: vs))) = 0
    · rw [if_pos hz] at h; cases h
    · rw [if_neg hz] at h
      injection h with h
      have hal : 0 ≤ meanQ (lastWindow 14 (lossList (v :: vs))) :=
        meanQ_nonneg fun x hx =>
          lossList_nonneg ((List.drop_sublist _ _).subset hx)
      have halpos : 0 < meanQ (lastWindow 14 (lossList (v :: vs))) :=
        lt_of_le_of_ne hal (Ne.symm hz)
      have hag : 0 ≤ meanQ (lastWindow 14 (gainList (v :: vs))) :=
        meanQ_nonneg fun x hx =>
          gainList_nonneg ((List.drop_sublist _ _).subset hx)
      have hrs : 0 ≤ meanQ (lastWindow 14 (gainList (v :: vs))) /
          meanQ (lastWindow 14 (lossList (v :: vs))) := div_nonneg hag hal
      set rs := meanQ (lastWindow 14 (gainList (v :: vs))) /
          meanQ (lastWindow 14 (lossList (v :: vs))) with hrsdef
      have h1 : (0 : ℚ) < 1 + rs := by linarith
      have h2 : 100 / (1 + rs) ≤ 100 := by
        rw [div_le_iff₀ h1]; nlinarith
      have h3 : (0 : ℚ) < 100 / (1 + rs) := div_pos (by norm_num) h1
      rw [← h]
      constructor <;> linarith

/-- Witness for C9: the two-point falling series `[2, 1]` has a defined RSI
of exactly 0 and satisfies the bounds. -/
theorem rsi_within_bounds_witness : 0 ≤ (0 : ℚ) ∧ (0 : ℚ) ≤ 100 :=
  rsi_within_bounds [2, 1] 0
    (by norm_num [rsiLast, lossList, gainList, diffs, lastWindow, meanQ])

/-- C8 counterexample: for the strictly rising 26-point series the trailing
14-period average loss is zero, yet the RSI of the source is `NaN`
(`avg_loss.replace(0, nan)` poisons the quotient) — not the claimed
saturation value 100. -/
theorem rsi_zero_loss_counterexample :
    rsiLast risingSeries = none ∧ 26 ≤ risingSeries.length ∧
      meanQ (lastWindow 14 (lossList risingSeries)) = 0 := by
  norm_num [rsiLast, risingSeries, lossList, gainList, diffs, lastWindow, meanQ]

/-- C8 amended: for every series long enough for indicator computation whose
trailing 14-period average loss is zero, the RSI is `NaN` (`none`), not 100. -/
theorem rsi_zero_loss_not_available (vals : List ℚ) (h26 : 26 ≤ vals.length)
    (hzero : meanQ (lastWindow 14 (lossList vals)) = 0) : rsiLast vals = none := by
  cases vals with
  | nil => simp at h26
  | cons v vs =>
    simp only [rsiLast]
    rw [if_pos hzero]

/-- Witness for the amended C8 at the concrete rising series. -/
theorem rsi_zero_loss_not_available_witness : rsiLast risingSeries = none :=
  rsi_zero_loss_not_available risingSeries (by norm_num [risingSeries])
    (by norm_num [risingSeries, lossList, diffs, lastWindow, meanQ])

/-- C1 counterexample: at the §8 fixture snapshot (RSI 28, MA-ratio 0.85,
positive MACD histogram, Bollinger clauses not firing) the rule chain of
`_calculate_indicators` assigns `强卖出/规避` (strong sell), not the claimed
`强买入` (strong buy): its first clause `ma_ratio < 0.95` fires before the
strong-buy clause is ever reached. -/
theorem strongBuy_trio_counterexample :
    liveActionSignal (some 28) (some (17 / 20)) (some 1) False False =
        Label.strongSell ∧
      Label.strongSell ≠ Label.strongBuy := by
  refine ⟨?_, by simp⟩
  norm_num [liveActionSignal, defLt, defGt]

/-- C1 amended: whenever RSI, MA-ratio and MACD histogram are all defined
with `rsi < 35`, `ma_ratio < 0.9` and `macd_histogram > 0`, the rule chain
of `_calculate_indicators` assigns `强卖出/规避` (strong sell), because
`ma_ratio < 0.9` implies the first clause `ma_ratio < 0.95`; in particular
the §8 fixture yields strong sell, not strong buy. -/
theorem strongBuy_trio_amended (r m h : ℚ) (bu bl : Prop)
    [Decidable bu] [Decidable bl]
    (hr : r < 35) (hm : m < 9 / 10) (hh : 0 < h) :
    liveActionSignal (some r) (some m) (some h) bu bl = Label.strongSell := by
  have hc : defLt (some m) (19 / 20) := by
    simp only [defLt]
    linarith
  rw [liveActionSignal, if_pos hc]

/-- Witness for the amended C1 at a concrete snapshot. -/
theorem strongBuy_trio_amended_witness :
    liveActionSignal (some 20) (some (1 / 2)) (some 2) False False =
      Label.strongSell :=
  strongBuy_trio_amended 20 (1 / 2) 2 False False (by norm_num) (by norm_num)
    (by norm_num)

/-- C5 counterexample: on the identical defined triple RSI 66,
MA-ratio 0.97, MACD histogram 0 (Bollinger clauses not firing), the live
rule chain of `_calculate_indicators` answers `弱卖出/规避` (weak sell)
while the inline chain of `_backtest_strategy` answers `弱买入` (weak buy):
the two tables order their clauses differently. -/
theorem rule_tables_counterexample :
    liveActionSignal (some 66) (some (97 / 100)) (some 0) False False =
        Label.weakSell ∧
      btClassify (some 66) (some (97 / 100)) (some 0) = Label.weakBuy ∧
      Label.weakSell ≠ Label.weakBuy := by
  refine ⟨?_, ?_, by simp⟩
  · norm_num [liveActionSignal, defLt, defGt]
  · norm_num [btClassify]

/-- C5 amended: the two rule tables consist of the same clauses but evaluate
them in different orders (the backtest tries its buy clauses first, the live
table its sell clauses first), so they can disagree; they provably agree on
every defined triple with `ma_ratio ≥ 1` in which additionally `rsi ≥ 45` or
`ma_ratio ≤ 1.2` (Bollinger clauses not firing). -/
theorem rule_tables_agree (r m h : ℚ) (h1 : 1 ≤ m)
    (h2 : 45 ≤ r ∨ m ≤ 6 / 5) :
    liveActionSignal (some r) (some m) (some h) False False =
      btClassify (some r) (some m) (some h) := by
  have k1 : ¬ (m < 19 / 20) := by linarith
  have k2 : ¬ (m < 9 / 10) := by linarith
  have k3 : ¬ (m < 1) := by linarith
  simp only [liveActionSignal, btClassify, defLt, defGt, k1, k2, k3,
    if_false, false_or, or_false, and_false, false_and, ite_false]
  rcases h2 with h45 | h65
  · have k4 : ¬ (r < 45) := by linarith
    simp [k4]
  · have k5 : ¬ (6 / 5 < m) := by linarith
    by_cases hr : r < 45
    · have k6 : ¬ (65 < r) := by linarith
      simp [k5, k6, hr]
    · simp [k5, hr]

/-- Witness for the amended C5 at a concrete agreeing triple. -/
theorem rule_tables_agree_witness :
    liveActionSignal (some 50) (some 1) (some 0) False False =
      btClassify (some 50) (some 1) (some 0) :=
  rule_tables_agree 50 1 0 (by norm_num) (Or.inl (by norm_num))

theorem fetchLoop_malformed (remote : ℕ → PageOutcome) (latestLocal : Option ℕ)
    (expected page fuel : ℕ) (acc : List SeriesPoint)
    (lastNew : Option (List SeriesPoint)) (hm : remote page = PageOutcome.malformed) :
    fetchLoop remote latestLocal expected page (fuel + 1) acc lastNew =
      Except.ok acc := by
  rw [fetchLoop, hm]

/-- C4 counterexample: a fund with a non-empty local cache whose every
remote request raises (the five `tenacity` attempts all fail) is recorded as
failed by `get_fund_data` — the exception propagates out of
`_fetch_fund_data` before the local-fallback branch of lines 192–195 can
run, so no indicator result is produced despite the cached history. -/
theorem fallback_counterexample :
    processFetched [(1, 1)] 5 remoteRaises = FundOutcome.failed ∧
      ([((1 : ℕ), (1 : ℚ))] : List SeriesPoint) ≠ [] := by
  refine ⟨?_, by simp⟩
  have hloop :
      fetchLoop remoteRaises (some (latestDate [(1, 1)])) 5 1 5 [] none =
        Except.error FetchErr.requestFailed := by
    show fetchLoop remoteRaises (some (latestDate [(1, 1)])) 5 1 (4 + 1) [] none =
      Except.error FetchErr.requestFailed
    rw [fetchLoop]
    rfl
  simp only [processFetched, fetchFundData, List.isEmpty_cons, Bool.false_eq_true,
    if_false, hloop]

theorem fetchLoop_stale_rows (remote : ℕ → PageOutcome) (d expected page fuel : ℕ)
    (acc : List SeriesPoint) (lastNew : Option (List SeriesPoint))
    (df : List SeriesPoint) (hrows : remote page = PageOutcome.rows df)
    (hstale : df.filter (fun p => decide (d < p.1)) = []) :
    fetchLoop remote (some d) expected page (fuel + 1) acc lastNew =
      Except.ok acc := by
  rw [fetchLoop, hrows]
  simp only [hstale, List.isEmpty_nil, if_true]

/-- C4 amended, all three parts as one statement.  First: the graceful local
fallback applies exactly to a fetch that finishes without an exception but
accumulates no new rows — whether a malformed page ends pagination or every
returned row is no newer than the cache — and with a non-empty local cache
the trailing 100 cached rows are returned and indicators are computed from
them.  Second: a fetch whose exception survives the retries marks the
instrument failed even when local history exists.  Third: with no exception,
no data and no local history the `ValueError` of line 197 marks it failed.
(`fetchLoop_malformed` and `fetchLoop_stale_rows` above discharge the
no-new-rows hypothesis for the two named page-1 scenarios.) -/
theorem fallback_soft_failure (localDf : List SeriesPoint) (expected : ℕ)
    (remote : ℕ → PageOutcome) :
    (localDf ≠ [] →
        fetchLoop remote (if localDf.isEmpty then none else some (latestDate localDf))
            expected 1 5 [] none = Except.ok [] →
        processFetched localDf expected remote =
          FundOutcome.computed (calculateIndicators (tail100 localDf))) ∧
    (∀ e : FetchErr,
        fetchLoop remote (if localDf.isEmpty then none else some (latestDate localDf))
            expected 1 5 [] none = Except.error e →
        processFetched localDf expected remote = FundOutcome.failed) ∧
    (localDf = [] →
        fetchLoop remote (if localDf.isEmpty then none else some (latestDate localDf))
            expected 1 5 [] none = Except.ok [] →
        processFetched localDf expected remote = FundOutcome.failed) := by
  refine ⟨?_, ?_, ?_⟩
  · intro hne hloop
    rcases localDf with _ | ⟨p, ps⟩
    · exact absurd rfl hne
    · simp only [List.isEmpty_cons, Bool.false_eq_true, if_false] at hloop
      simp only [processFetched, fetchFundData, List.isEmpty_cons, Bool.false_eq_true,
        if_false, hloop, List.isEmpty_nil, not_true, not_false_iff, if_true]
  · intro e hloop
    simp only [processFetched, fetchFundData, hloop]
  · intro he hloop
    subst he
    simp only [List.isEmpty_nil, if_true] at hloop
    simp only [processFetched, fetchFundData, List.isEmpty_nil, if_true, hloop,
      not_true, if_false]

/-- Witness for the amended C4, at the scenario where the remote answers with
rows none newer than the cache: one cached row dated 1, every page returning
a single row dated 1, so `new_df` is empty, the loop breaks, and the run
falls back to the cached history. -/
theorem fallback_soft_failure_witness :
    processFetched [(1, 1)] 5 remoteStale =
      FundOutcome.computed (calculateIndicators (tail100 [(1, 1)])) :=
  (fallback_soft_failure [(1, 1)] 5 remoteStale).1 (by simp)
    (fetchLoop_stale_rows remoteStale (latestDate [(1, 1)]) 5 1 4 [] none
      [(1, 1)] rfl rfl)

/-- C6: a fund whose local cache is fresh
(`latest_local_date ≥ expected_latest_date`, with the expected date derived
from the 21:00 cutoff by `_get_expected_latest_date`) and long enough
(`≥ 26` rows) is served from the cache by `get_fund_data`: zero fetch calls
are made and the indicator record is computed from the trailing 100 cached
rows. -/
theorem cache_fresh_skips_fetch (today mins : ℕ) (localDf : List SeriesPoint)
    (remote : ℕ → PageOutcome) (hne : localDf ≠ [])
    (hfresh : getExpectedLatestDate today mins ≤ latestDate localDf)
    (hlen : 26 ≤ localDf.length) :
    processFund localDf (getExpectedLatestDate today mins) remote =
      (FundOutcome.computed (calculateIndicators (tail100 localDf)), 0) := by
  rw [processFund, if_pos ⟨hne, hfresh, hlen⟩]

/-- Witness for C6: a 26-row cache with latest date 26, clock at midnight of
day 10 (expected date 9), against a remote that would raise if contacted. -/
theorem cache_fresh_skips_fetch_witness :
    processFund cachedSeries (getExpectedLatestDate 10 0) remoteRaises =
      (FundOutcome.computed (calculateIndicators (tail100 cachedSeries)), 0) :=
  cache_fresh_skips_fetch 10 0 cachedSeries remoteRaises (by decide)
    (by decide) (by decide)

/-- C7 (claim correct, code wrong): on a first-ever sync with an empty local
cache, a first page holding a full 20 valid rows reaches line 169's check
`new_df.empty` with the Python variable `new_df` never assigned (it is only
bound on the `latest_local_date` branch), raising `NameError` instead of
paginating on and returning the accumulated history.  Only a short
(< 20-row) first page escapes, via the earlier break of line 164. -/
theorem first_sync_full_page_raises :
    fetchFundData [] 100 remoteFullPages = Except.error FetchErr.nameError := by
  have hloop :
      fetchLoop remoteFullPages none 100 1 5 [] none =
        Except.error FetchErr.nameError := by
    show fetchLoop remoteFullPages none 100 1 (4 + 1) [] none =
      Except.error FetchErr.nameError
    rw [fetchLoop]
    norm_num [remoteFullPages, fullPage]
  simp only [fetchFundData, List.isEmpty_nil, if_true, hloop]
